import Mathlib

/-!
Shallow embedding of the RBAC core of the document-control backend
(app/models/{user,role,permission}.py, app/core/permissions.py,
app/api/v1/endpoints/{permission,role,users}.py).

The relational store is a `DB` record: entity tables are lists of rows and
the two many-to-many join tables (`user_role`, `role_permissions`) are lists
of id pairs.  Each endpoint is a function from a `DB` and its request
arguments to `Except HttpError (response × DB)`; raising `HTTPException`
before `db.commit()` leaves the store unchanged, so an error result carries
no new state (`stateAfter` returns the input `DB` in that case).
-/

namespace DocCtrl

/-- Row of the `users` table (app/models/user.py); only the columns the
RBAC claims touch are kept. -/
structure User where
  id : Nat
  name : String
  email : String
deriving Repr, DecidableEq

/-- Row of the `roles` table (app/models/role.py). -/
structure Role where
  id : Nat
  name : String
  slug : String
deriving Repr, DecidableEq

/-- Row of the `permissions` table (app/models/permission.py). -/
structure Permission where
  id : Nat
  slug : String
  description : Option String
deriving Repr, DecidableEq

/-- The relational store: entity tables plus the two join tables
`user_role (user_id, role_id)` and `role_permissions (role_id, permission_id)`. -/
structure DB where
  users : List User
  roles : List Role
  permissions : List Permission
  userRoles : List (Nat × Nat)
  rolePermissions : List (Nat × Nat)
deriving Repr, DecidableEq

/-- A FastAPI `HTTPException`: status code and detail message.  The spec
taxonomy maps onto these as 404 = NotFound, 400 = Conflict or
InvalidArgument (distinguished by the detail text), 403 = PermissionDenied,
422 = InvalidArgument from schema validation. -/
structure HttpError where
  status : Nat
  detail : String
deriving Repr, DecidableEq

/-- The database invariants the unique constraints and primary keys of the
schema enforce: unique ids, unique `Role.name`, unique `Permission.slug`,
and (pair) primary keys on both join tables. -/
def Wf (db : DB) : Prop :=
  (db.users.map (fun u => u.id)).Nodup ∧
  (db.roles.map (fun r => r.id)).Nodup ∧
  (db.roles.map (fun r => r.name)).Nodup ∧
  (db.permissions.map (fun p => p.id)).Nodup ∧
  (db.permissions.map (fun p => p.slug)).Nodup ∧
  db.userRoles.Nodup ∧
  db.rolePermissions.Nodup

/-- Translates `db.query(User).filter(User.id == user_id).first()`. -/
def findUser (db : DB) (uid : Nat) : Option User :=
  db.users.find? (fun u => u.id = uid)

/-- Translates `db.query(Role).filter(Role.id == role_id).first()`. -/
def findRole (db : DB) (rid : Nat) : Option Role :=
  db.roles.find? (fun r => r.id = rid)

/-- Translates `db.query(Role).filter(Role.name == role_name).first()`. -/
def findRoleByName (db : DB) (name : String) : Option Role :=
  db.roles.find? (fun r => r.name = name)

/-- Translates `Permission.get_by_slug` (app/models/permission.py). -/
def get_by_slug (db : DB) (slug : String) : Option Permission :=
  db.permissions.find? (fun p => p.slug = slug)

/-- Translates `Permission.get_by_slugs`: all rows whose slug is in the list. -/
def get_by_slugs (db : DB) (slugs : List String) : List Permission :=
  db.permissions.filter (fun p => p.slug ∈ slugs)

/-- The ORM collection `user.roles` (relationship through `user_role`). -/
def rolesOf (db : DB) (uid : Nat) : List Role :=
  db.roles.filter (fun r => (uid, r.id) ∈ db.userRoles)

/-- The ORM collection `role.permissions` (relationship through
`role_permissions`). -/
def permsOf (db : DB) (rid : Nat) : List Permission :=
  db.permissions.filter (fun p => (rid, p.id) ∈ db.rolePermissions)

/-- The ORM collection `role.users`. -/
def usersOf (db : DB) (rid : Nat) : List User :=
  db.users.filter (fun u => (u.id, rid) ∈ db.userRoles)

/-- Translates `check_user_has_permission` (app/core/permissions.py):
false for a missing user or slug, else true iff some held role
contains the permission. -/
def check_user_has_permission (db : DB) (uid : Nat) (slug : String) : Bool :=
  match findUser db uid with
  | none => false
  | some _ =>
    match get_by_slug db slug with
    | none => false
    | some p => (rolesOf db uid).any (fun r => p ∈ permsOf db r.id)

/-- Translates `get_user_permissions` (app/core/permissions.py): the slugs
of all permissions of all held roles, collected into a Python `set`
(modelled by `List.dedup`); `[]` for a missing user. -/
def get_user_permissions (db : DB) (uid : Nat) : List String :=
  match findUser db uid with
  | none => []
  | some _ =>
    (((rolesOf db uid).flatMap (fun r => permsOf db r.id)).map (fun p => p.slug)).dedup

/-- Python `list.remove`: drop the first occurrence of a pair. -/
def listRemove (x : Nat × Nat) : List (Nat × Nat) → List (Nat × Nat)
  | [] => []
  | y :: ys => if y = x then ys else y :: listRemove x ys

/-- State left behind by an endpoint call: on `HTTPException` nothing was
committed, so the store is the input one. -/
def stateAfter {α : Type} (db : DB) (r : Except HttpError (α × DB)) : DB :=
  match r with
  | .error _ => db
  | .ok (_, db2) => db2

/-- Response schema `UserPermissionResponse` (app/schemas/permission.py). -/
structure UserPermissionResponse where
  user_id : Nat
  permission_slug : String
  has_permission : Bool
  granted_via_roles : List String
deriving Repr, DecidableEq

/-- Response schema `RolePermissionResponse` (app/schemas/permission.py). -/
structure RolePermissionResponse where
  role_id : Nat
  role_name : String
  role_slug : String
  permissions : List Permission
  total_permissions : Nat
deriving Repr, DecidableEq

/-- Body of the response of the alternative bulk role endpoints
(role.py `/bulk/assign` and `/bulk/unassign`). -/
structure BulkCountResponse where
  success_count : Nat
  failed_count : Nat
deriving Repr, DecidableEq

/-- Translates endpoint `GET /permissions/users/{user_id}/check/{permission_slug}`
(permission.py `check_user_permission`): 404 for a missing user or
permission, else the loop that records every held role containing the
permission. -/
def check_user_permission (db : DB) (uid : Nat) (slug : String) :
    Except HttpError UserPermissionResponse :=
  match findUser db uid with
  | none => .error ⟨404, "User not found"⟩
  | some user =>
    match get_by_slug db slug with
    | none => .error ⟨404, "Permission not found"⟩
    | some p =>
      let st := (rolesOf db user.id).foldl
        (fun (acc : Bool × List String) r =>
          if p ∈ permsOf db r.id then (true, acc.2 ++ [r.name]) else acc)
        (false, [])
      .ok ⟨user.id, slug, st.1, st.2⟩

/-- Translates endpoint `GET /permissions/users/{user_id}/permissions`
(permission.py `get_user_permissions`): 404 for a missing user, else the
Python `set` of all permissions of all held roles (modelled by `dedup`). -/
def get_user_permissions_endpoint (db : DB) (uid : Nat) :
    Except HttpError (List Permission) :=
  match findUser db uid with
  | none => .error ⟨404, "User not found"⟩
  | some user =>
    .ok (((rolesOf db user.id).flatMap (fun r => permsOf db r.id)).dedup)

/-- The `validate_permission_slugs` Pydantic validator on
`RolePermissionAssign` / `RolePermissionUnassign`: drop duplicates keeping
the first occurrence. -/
def uniqueKeepFirst (l : List String) : List String :=
  l.foldl (fun acc s => if s ∈ acc then acc else acc ++ [s]) []

/-- The append loop of `assign_permissions_to_role`:
`if permission not in role.permissions: role.permissions.append(permission)`,
acting on the `role_permissions` join rows. -/
def assignPermsLoop (rid : Nat) (perms : List Permission)
    (pairs : List (Nat × Nat)) : List (Nat × Nat) :=
  perms.foldl
    (fun acc p => if (rid, p.id) ∈ acc then acc else acc ++ [(rid, p.id)])
    pairs

/-- The removal loop of `unassign_permissions_from_role`:
`if permission in role.permissions: role.permissions.remove(permission)`. -/
def unassignPermsLoop (rid : Nat) (perms : List Permission)
    (pairs : List (Nat × Nat)) : List (Nat × Nat) :=
  perms.foldl
    (fun acc p => if (rid, p.id) ∈ acc then listRemove (rid, p.id) acc else acc)
    pairs

/-- Translates endpoint `POST /permissions/roles/{role_id}/assign`
(permission.py `assign_permissions_to_role`): 404 for a missing role; 404
listing the missing slugs when the resolved permissions are fewer than the
requested (deduplicated) slugs; otherwise append each resolved permission
not already held and report the refreshed role. -/
def assign_permissions_to_role (db : DB) (rid : Nat) (slugs : List String) :
    Except HttpError (RolePermissionResponse × DB) :=
  let slugs1 := uniqueKeepFirst slugs
  match findRole db rid with
  | none => .error ⟨404, "Role not found"⟩
  | some role =>
    let perms := get_by_slugs db slugs1
    if perms.length ≠ slugs1.length then
      let foundSlugs := perms.map (fun p => p.slug)
      let missing := slugs1.filter (fun s => s ∉ foundSlugs)
      .error ⟨404, "Permissions not found: " ++ String.intercalate (", ") missing⟩
    else
      let db2 : DB := { db with rolePermissions := assignPermsLoop rid perms db.rolePermissions }
      .ok (⟨role.id, role.name, role.slug, permsOf db2 rid, (permsOf db2 rid).length⟩, db2)

/-- Translates endpoint `POST /permissions/roles/{role_id}/unassign`
(permission.py `unassign_permissions_from_role`): 404 for a missing role;
slugs that resolve are removed from the role when held, unresolved slugs
are silently ignored. -/
def unassign_permissions_from_role (db : DB) (rid : Nat) (slugs : List String) :
    Except HttpError (RolePermissionResponse × DB) :=
  let slugs1 := uniqueKeepFirst slugs
  match findRole db rid with
  | none => .error ⟨404, "Role not found"⟩
  | some role =>
    let perms := get_by_slugs db slugs1
    let db2 : DB := { db with rolePermissions := unassignPermsLoop rid perms db.rolePermissions }
    .ok (⟨role.id, role.name, role.slug, permsOf db2 rid, (permsOf db2 rid).length⟩, db2)

/-- Translates endpoint `POST /role/assign` (role.py `assign_role_to_user`). -/
def assign_role_to_user (db : DB) (uid rid : Nat) :
    Except HttpError (String × DB) :=
  match findUser db uid with
  | none => .error ⟨404, "User not found"⟩
  | some user =>
    match findRole db rid with
    | none => .error ⟨404, "Role not found"⟩
    | some role =>
      if role ∈ rolesOf db user.id then
        .error ⟨400, "User already has this role"⟩
      else
        .ok ("Role assigned",
          { db with userRoles := db.userRoles ++ [(user.id, role.id)] })

/-- Translates endpoint `POST /role/unassign` (role.py `unassign_role_from_user`). -/
def unassign_role_from_user (db : DB) (uid rid : Nat) :
    Except HttpError (String × DB) :=
  match findUser db uid with
  | none => .error ⟨404, "User not found"⟩
  | some user =>
    match findRole db rid with
    | none => .error ⟨404, "Role not found"⟩
    | some role =>
      if role ∉ rolesOf db user.id then
        .error ⟨400, "User does not have this role"⟩
      else
        .ok ("Role removed",
          { db with userRoles := listRemove (user.id, role.id) db.userRoles })

/-- Translates endpoint `GET /role/check/{user_id}/{role_name}`
(role.py `check_user_role_by_get`): 404 for missing user or role, else
whether the role object is in `user.roles`. -/
def check_user_role_by_get (db : DB) (uid : Nat) (roleName : String) :
    Except HttpError Bool :=
  match findUser db uid with
  | none => .error ⟨404, "User not found"⟩
  | some user =>
    match findRoleByName db roleName with
    | none => .error ⟨404, "Role not found"⟩
    | some role => .ok (role ∈ rolesOf db user.id)

/-- Translates endpoint `DELETE /role/{role_id}` (role.py `delete_role`):
404 for a missing role, 400 when users still hold it, else the ORM delete,
which also removes the join rows of both secondary tables. -/
def delete_role (db : DB) (rid : Nat) : Except HttpError (String × DB) :=
  match findRole db rid with
  | none => .error ⟨404, "Role not found"⟩
  | some role =>
    let usersCount := (usersOf db role.id).length
    if usersCount > 0 then
      .error ⟨400, "Cannot delete role. " ++ toString usersCount ++
        " users still have this role"⟩
    else
      .ok ("Role deleted successfully",
        { db with
          roles := db.roles.filter (fun r => r.id ≠ role.id)
          userRoles := db.userRoles.filter (fun pr => pr.2 ≠ role.id)
          rolePermissions := db.rolePermissions.filter (fun pr => pr.1 ≠ role.id) })

/-- The per-user loop shared by both bulk-assign endpoints: append
`(user_id, role_id)` for every found user not already holding the role,
counting the appends. -/
def bulkAssignLoop (rid : Nat) (users : List User)
    (pairs : List (Nat × Nat)) : List (Nat × Nat) × Nat :=
  users.foldl
    (fun (acc : List (Nat × Nat) × Nat) u =>
      if (u.id, rid) ∈ acc.1 then acc else (acc.1 ++ [(u.id, rid)], acc.2 + 1))
    (pairs, 0)

/-- Translates endpoint `POST /role/assign/bulk` (role.py `bulk_assign_role`):
404 for a missing role; 404 `Some users not found` when the users resolved
from the id list are fewer than the ids; else assign to every user not
already holding the role. -/
def bulk_assign_role (db : DB) (userIds : List Nat) (rid : Nat) :
    Except HttpError (Nat × DB) :=
  match findRole db rid with
  | none => .error ⟨404, "Role not found"⟩
  | some role =>
    let users := db.users.filter (fun u => u.id ∈ userIds)
    if users.length ≠ userIds.length then
      .error ⟨404, "Some users not found"⟩
    else
      let st := bulkAssignLoop role.id users db.userRoles
      .ok (st.2, { db with userRoles := st.1 })

/-- Translates endpoint `POST /role/bulk/assign` (role.py
`bulk_assign_roles_alt`): 404 for a missing role; ids that resolve to no
user are silently dropped by the `in_` query; `failed_count` is initialised
to 0 and never incremented. -/
def bulk_assign_roles_alt (db : DB) (userIds : List Nat) (rid : Nat) :
    Except HttpError (BulkCountResponse × DB) :=
  match findRole db rid with
  | none => .error ⟨404, "Role not found"⟩
  | some role =>
    let users := db.users.filter (fun u => u.id ∈ userIds)
    let st := bulkAssignLoop role.id users db.userRoles
    .ok (⟨st.2, 0⟩, { db with userRoles := st.1 })

/-- Character class `[a-z0-9_.-]` of the slug pattern in
app/schemas/permission.py. -/
def slugChar (c : Char) : Bool :=
  (('a' ≤ c && c ≤ 'z') || ('0' ≤ c && c ≤ '9') || c = '_' || c = '.' || c = '-')

/-- Python `re.match(r"^[a-z0-9_.-]+$", v)`: one or more class characters,
where `$` also matches just before one trailing newline. -/
def re_match_slug (v : String) : Bool :=
  let cs := if v.data.getLast? = some (Char.ofNat 10) then v.data.dropLast else v.data
  cs.length > 0 && cs.all slugChar

/-- Fresh autoincrement id for a table. -/
def nextId (ids : List Nat) : Nat := ids.foldl max 0 + 1

/-- Translates endpoint `POST /permissions` (permission.py
`create_permission`) together with the `PermissionCreate` schema
(min_length 2, max_length 191, `validate_slug`); schema violations surface
as 422 before the handler runs, a duplicate slug as 400. -/
def create_permission (db : DB) (slug : String) (description : Option String) :
    Except HttpError (Permission × DB) :=
  if slug.length < 2 then
    .error ⟨422, "String should have at least 2 characters"⟩
  else if slug.length > 191 then
    .error ⟨422, "String should have at most 191 characters"⟩
  else if ¬ re_match_slug slug then
    .error ⟨422, "Slug can only contain lowercase letters, numbers, hyphens, underscores, and dots"⟩
  else
    match get_by_slug db slug with
    | some _ =>
      .error ⟨400, "Permission with slug \x27" ++ slug ++ "\x27 already exists"⟩
    | none =>
      let p : Permission := ⟨nextId (db.permissions.map (fun q => q.id)), slug, description⟩
      .ok (p, { db with permissions := db.permissions ++ [p] })

/-- Python `str.lower` on one character (the role names and emails this
code lowers are ASCII, where `lower` maps `A`-`Z` onto `a`-`z`). -/
def lowerChar (c : Char) : Char :=
  if 65 ≤ c.toNat ∧ c.toNat ≤ 90 then Char.ofNat (c.toNat + 32) else c

/-- Python `str.lower` (and SQL `func.lower`) on a string. -/
def lowerStr (s : String) : String := ⟨s.data.map lowerChar⟩

/-- The admin check of users.py `update_user` / `delete_user`:
`"admin" in [role.name.lower() for role in current_user.roles]`. -/
def isAdminGate (db : DB) (cu : User) : Bool :=
  decide (("admin" : String) ∈ (rolesOf db cu.id).map (fun r => lowerStr r.name))

/-- The check of the `require_role` decorator (app/core/permissions.py):
`role_name in [role.name for role in current_user.roles]`, an exact
name comparison. -/
def require_role_check (db : DB) (cu : User) (roleName : String) : Bool :=
  decide (roleName ∈ (rolesOf db cu.id).map (fun r => r.name))

/-- Replace the row of user `uid` (the ORM flush of attribute writes). -/
def setUser (db : DB) (uid : Nat) (u : User) : DB :=
  { db with users := db.users.map (fun v => if v.id = uid then u else v) }

/-- Translates endpoint `PUT /users/{user_id}` (users.py `update_user`):
404 for a missing target; 403 unless the caller is a (case-insensitive)
admin or the target; then apply name and email updates, rejecting an email
already registered to another user (case-insensitive). -/
def update_user (db : DB) (uid : Nat) (cu : User)
    (newName newEmail : Option String) : Except HttpError (User × DB) :=
  match findUser db uid with
  | none => .error ⟨404, "User not found"⟩
  | some user =>
    if ¬ isAdminGate db cu ∧ ¬ (cu.id = uid) then
      .error ⟨403, "Cannot update other users"⟩
    else
      let user1 := match newName with
        | none => user
        | some n => { user with name := n }
      match newEmail with
      | none => .ok (user1, setUser db uid user1)
      | some e =>
        match db.users.find? (fun v => lowerStr v.email = lowerStr e) with
        | some existing =>
          if existing.id ≠ uid then
            .error ⟨400, "Email already registered"⟩
          else
            .ok ({ user1 with email := e }, setUser db uid { user1 with email := e })
        | none =>
          .ok ({ user1 with email := e }, setUser db uid { user1 with email := e })

/-- Translates endpoint `DELETE /users/{user_id}` (users.py `delete_user`):
404 for a missing target, 403 unless the caller is a (case-insensitive)
admin, else the ORM delete (which drops the membership join rows). -/
def delete_user (db : DB) (uid : Nat) (cu : User) :
    Except HttpError (String × DB) :=
  match findUser db uid with
  | none => .error ⟨404, "User not found"⟩
  | some _ =>
    if ¬ isAdminGate db cu then
      .error ⟨403, "Admin role required to delete users"⟩
    else
      .ok ("User deleted successfully",
        { db with
          users := db.users.filter (fun u => u.id ≠ uid)
          userRoles := db.userRoles.filter (fun pr => pr.1 ≠ uid) })

/-- An empty store, for the counterexamples. -/
def exEmpty : DB := ⟨[], [], [], [], []⟩

/-- Sample store: two overlapping roles over three permissions and three
users, used by the witnesses.  User 1 holds roles 10 and 20, user 2 holds
only role 10, user 3 holds nothing.  Role 10 grants permissions 100 and
101, role 20 grants 101 and 102. -/
def exDB : DB :=
  ⟨[⟨1, "Alice", "alice@example.com"⟩, ⟨2, "Bob", "bob@example.com"⟩,
    ⟨3, "Cara", "cara@example.com"⟩],
   [⟨10, "editor", "editor"⟩, ⟨20, "reviewer", "reviewer"⟩],
   [⟨100, "documents.create", none⟩, ⟨101, "documents.update", none⟩,
    ⟨102, "documents.read", none⟩],
   [(1, 10), (1, 20), (2, 10)],
   [(10, 100), (10, 101), (20, 101), (20, 102)]⟩

/-- Sample store for the admin-gate claims: user 7 holds a role whose name
is upper-cased `ADMIN`, user 8 holds no role. -/
def exAdminDB : DB :=
  ⟨[⟨7, "Root", "root@example.com"⟩, ⟨8, "Guest", "guest@example.com"⟩],
   [⟨30, "ADMIN", "admin"⟩],
   [],
   [(7, 30)],
   []⟩

/-- Sample store for the bulk-assignment scenario of the spec: three users
exist, a role nobody holds yet, and the request will name five user ids. -/
def exBulkDB : DB :=
  ⟨[⟨1, "Alice", "alice@example.com"⟩, ⟨2, "Bob", "bob@example.com"⟩,
    ⟨3, "Cara", "cara@example.com"⟩],
   [⟨40, "staff", "staff"⟩],
   [],
   [],
   []⟩

instance (db : DB) : Decidable (Wf db) := by
  unfold Wf
  infer_instance

/-! Helper lemmas about the embedding. -/

theorem mem_rolesOf {db : DB} {uid : Nat} {r : Role} :
    r ∈ rolesOf db uid ↔ r ∈ db.roles ∧ (uid, r.id) ∈ db.userRoles := by
  simp [rolesOf, List.mem_filter]

theorem mem_permsOf {db : DB} {rid : Nat} {p : Permission} :
    p ∈ permsOf db rid ↔ p ∈ db.permissions ∧ (rid, p.id) ∈ db.rolePermissions := by
  simp [permsOf, List.mem_filter]

theorem mem_usersOf {db : DB} {rid : Nat} {u : User} :
    u ∈ usersOf db rid ↔ u ∈ db.users ∧ (u.id, rid) ∈ db.userRoles := by
  simp [usersOf, List.mem_filter]

theorem findUser_eq_some {db : DB} {uid : Nat} {u : User}
    (h : findUser db uid = some u) : u ∈ db.users ∧ u.id = uid := by
  refine ⟨List.mem_of_find?_eq_some h, ?_⟩
  have := List.find?_some h
  simpa using this

theorem findRole_eq_some {db : DB} {rid : Nat} {r : Role}
    (h : findRole db rid = some r) : r ∈ db.roles ∧ r.id = rid := by
  refine ⟨List.mem_of_find?_eq_some h, ?_⟩
  have := List.find?_some h
  simpa using this

theorem findRoleByName_eq_some {db : DB} {n : String} {r : Role}
    (h : findRoleByName db n = some r) : r ∈ db.roles ∧ r.name = n := by
  refine ⟨List.mem_of_find?_eq_some h, ?_⟩
  have := List.find?_some h
  simpa using this

theorem get_by_slug_eq_some {db : DB} {s : String} {p : Permission}
    (h : get_by_slug db s = some p) : p ∈ db.permissions ∧ p.slug = s := by
  refine ⟨List.mem_of_find?_eq_some h, ?_⟩
  have := List.find?_some h
  simpa using this

theorem get_by_slug_eq_none {db : DB} {s : String} :
    get_by_slug db s = none ↔ ∀ p ∈ db.permissions, p.slug ≠ s := by
  simp [get_by_slug, List.find?_eq_none]

theorem mem_get_by_slugs {db : DB} {slugs : List String} {p : Permission} :
    p ∈ get_by_slugs db slugs ↔ p ∈ db.permissions ∧ p.slug ∈ slugs := by
  simp [get_by_slugs, List.mem_filter]

/-- Two members of a list with a duplicate-free image under `f` and equal
images are equal. -/
theorem eq_of_nodup_map {α β : Type} {f : α → β} {l : List α}
    (h : (l.map f).Nodup) {a b : α} (ha : a ∈ l) (hb : b ∈ l)
    (hf : f a = f b) : a = b :=
  List.inj_on_of_nodup_map h ha hb hf

theorem wf_users_nodup {db : DB} (h : Wf db) : (db.users.map (fun u => u.id)).Nodup := h.1

theorem wf_roles_nodup {db : DB} (h : Wf db) : (db.roles.map (fun r => r.id)).Nodup := h.2.1

theorem wf_roleNames_nodup {db : DB} (h : Wf db) : (db.roles.map (fun r => r.name)).Nodup := h.2.2.1

theorem wf_permIds_nodup {db : DB} (h : Wf db) : (db.permissions.map (fun p => p.id)).Nodup := h.2.2.2.1

theorem wf_permSlugs_nodup {db : DB} (h : Wf db) : (db.permissions.map (fun p => p.slug)).Nodup := h.2.2.2.2.1

theorem wf_userRoles_nodup {db : DB} (h : Wf db) : db.userRoles.Nodup := h.2.2.2.2.2.1

theorem wf_rolePerms_nodup {db : DB} (h : Wf db) : db.rolePermissions.Nodup := h.2.2.2.2.2.2

/-- Under the `Permission.slug` unique constraint, looking up the slug of a
stored permission returns that permission. -/
theorem get_by_slug_self {db : DB}
    (hnd : (db.permissions.map (fun p => p.slug)).Nodup) {p : Permission}
    (hp : p ∈ db.permissions) : get_by_slug db p.slug = some p := by
  cases hfind : get_by_slug db p.slug with
  | none =>
    exact absurd rfl (get_by_slug_eq_none.mp hfind p hp)
  | some q =>
    obtain ⟨hqmem, hqslug⟩ := get_by_slug_eq_some hfind
    have : q = p := eq_of_nodup_map hnd hqmem hp hqslug
    rw [this]

/-- Under the `Role.id` primary key, looking up the id of a stored role
returns that role. -/
theorem findRole_self {db : DB}
    (hnd : (db.roles.map (fun r => r.id)).Nodup) {r : Role}
    (hr : r ∈ db.roles) : findRole db r.id = some r := by
  cases hfind : findRole db r.id with
  | none =>
    have := (List.find?_eq_none.mp hfind) r hr
    simp at this
  | some q =>
    obtain ⟨hqmem, hqid⟩ := findRole_eq_some hfind
    have : q = r := eq_of_nodup_map hnd hqmem hr hqid
    rw [this]

/-- Under the `Role.name` unique constraint, looking up the name of a
stored role returns that role. -/
theorem findRoleByName_self {db : DB}
    (hnd : (db.roles.map (fun r => r.name)).Nodup) {r : Role}
    (hr : r ∈ db.roles) : findRoleByName db r.name = some r := by
  cases hfind : findRoleByName db r.name with
  | none =>
    have := (List.find?_eq_none.mp hfind) r hr
    simp at this
  | some q =>
    obtain ⟨hqmem, hqname⟩ := findRoleByName_eq_some hfind
    have : q = r := eq_of_nodup_map hnd hqmem hr hqname
    rw [this]

theorem mem_listRemove_of_ne {x y : Nat × Nat} {l : List (Nat × Nat)}
    (h : y ≠ x) : y ∈ listRemove x l ↔ y ∈ l := by
  induction l with
  | nil => simp [listRemove]
  | cons z zs ih =>
    by_cases hz : z = x
    · subst hz
      simp [listRemove, h]
    · simp [listRemove, hz, ih]

theorem not_mem_listRemove {x : Nat × Nat} {l : List (Nat × Nat)}
    (h : l.Nodup) : x ∉ listRemove x l := by
  induction l with
  | nil => simp [listRemove]
  | cons z zs ih =>
    by_cases hz : z = x
    · subst hz
      simpa [listRemove] using (List.nodup_cons.mp h).1
    · intro hmem
      simp only [listRemove, if_neg hz, List.mem_cons] at hmem
      rcases hmem with hmem | hmem
      · exact hz hmem.symm
      · exact ih (List.nodup_cons.mp h).2 hmem

theorem uniqueKeepFirst_aux_mem (l acc : List String) (s : String) :
    s ∈ l.foldl (fun acc t => if t ∈ acc then acc else acc ++ [t]) acc ↔
      s ∈ acc ∨ s ∈ l := by
  induction l generalizing acc with
  | nil => simp
  | cons t ts ih =>
    by_cases ht : t ∈ acc
    · simp only [List.foldl_cons, if_pos ht, ih, List.mem_cons]
      constructor
      · rintro (h | h)
        · exact Or.inl h
        · exact Or.inr (Or.inr h)
      · rintro (h | h | h)
        · exact Or.inl h
        · exact Or.inl (h ▸ ht)
        · exact Or.inr h
    · simp only [List.foldl_cons, if_neg ht, ih, List.mem_append,
        List.mem_singleton, List.mem_cons]
      tauto

theorem uniqueKeepFirst_aux_nodup (l : List String) (acc : List String)
    (h : acc.Nodup) :
    (l.foldl (fun acc t => if t ∈ acc then acc else acc ++ [t]) acc).Nodup := by
  induction l generalizing acc with
  | nil => simpa
  | cons t ts ih =>
    by_cases ht : t ∈ acc
    · simpa [List.foldl_cons, if_pos ht] using ih acc h
    · simp only [List.foldl_cons, if_neg ht]
      refine ih (acc ++ [t]) ?_
      simp [List.nodup_append, h, ht]

theorem mem_uniqueKeepFirst {l : List String} {s : String} :
    s ∈ uniqueKeepFirst l ↔ s ∈ l := by
  simpa [uniqueKeepFirst] using uniqueKeepFirst_aux_mem l [] s

theorem uniqueKeepFirst_nodup (l : List String) : (uniqueKeepFirst l).Nodup :=
  uniqueKeepFirst_aux_nodup l [] List.nodup_nil

/-- A duplicate-free list all of whose members equal `a`, and which
contains `a`, is the singleton `[a]`. -/
theorem eq_singleton_of_nodup {α : Type} {l : List α} {a : α}
    (hn : l.Nodup) (hmem : a ∈ l) (hall : ∀ x ∈ l, x = a) : l = [a] := by
  cases l with
  | nil => cases hmem
  | cons x xs =>
    have hx : x = a := hall x (List.mem_cons_self x xs)
    subst hx
    have : xs = [] := by
      apply List.eq_nil_iff_forall_not_mem.mpr
      intro y hy
      have hyx : y = x := hall y (List.mem_cons_of_mem x hy)
      exact (List.nodup_cons.mp hn).1 (hyx ▸ hy)
    rw [this]

/-- In a duplicate-free list a member occurs exactly once. -/
theorem filter_eq_length_one_of_nodup {α : Type} [DecidableEq α]
    {l : List α} {a : α} (hn : l.Nodup) (hmem : a ∈ l) :
    (l.filter (fun x => x = a)).length = 1 := by
  have h1 : l.filter (fun x => x = a) = [a] := by
    apply eq_singleton_of_nodup (hn.filter _)
    · simp [List.mem_filter, hmem]
    · intro x hx
      simpa using (List.mem_filter.mp hx).2
  rw [h1]
  rfl

/-- The loop of `check_user_permission` computes `any` together with the
filtered role names, in order. -/
theorem check_fold_spec (db : DB) (p : Permission) (roles : List Role)
    (b : Bool) (acc : List String) :
    roles.foldl
      (fun (acc : Bool × List String) r =>
        if p ∈ permsOf db r.id then (true, acc.2 ++ [r.name]) else acc)
      (b, acc) =
    (b || roles.any (fun r => p ∈ permsOf db r.id),
      acc ++ (roles.filter (fun r => p ∈ permsOf db r.id)).map (fun r => r.name)) := by
  induction roles generalizing b acc with
  | nil => simp
  | cons r rs ih =>
    by_cases hr : p ∈ permsOf db r.id
    · simp [List.foldl_cons, hr, ih, List.any_cons, List.filter_cons]
    · simp [List.foldl_cons, hr, ih, List.any_cons, List.filter_cons]

theorem assignPermsLoop_mem (rid : Nat) (perms : List Permission)
    (pairs : List (Nat × Nat)) (pr : Nat × Nat) :
    pr ∈ assignPermsLoop rid perms pairs ↔
      pr ∈ pairs ∨ ∃ p ∈ perms, pr = (rid, p.id) := by
  induction perms generalizing pairs with
  | nil => simp [assignPermsLoop]
  | cons p ps ih =>
    by_cases hp : (rid, p.id) ∈ pairs
    · simp only [assignPermsLoop, List.foldl_cons, if_pos hp] at *
      rw [ih]
      constructor
      · rintro (h | ⟨q, hq, rfl⟩)
        · exact Or.inl h
        · exact Or.inr ⟨q, List.mem_cons_of_mem p hq, rfl⟩
      · rintro (h | ⟨q, hq, rfl⟩)
        · exact Or.inl h
        · rcases List.mem_cons.mp hq with rfl | hq
          · exact Or.inl hp
          · exact Or.inr ⟨q, hq, rfl⟩
    · simp only [assignPermsLoop, List.foldl_cons, if_neg hp] at *
      rw [ih]
      simp only [List.mem_append, List.mem_singleton, List.mem_cons, List.not_mem_nil, or_false]
      constructor
      · rintro ((h | h) | ⟨q, hq, rfl⟩)
        · exact Or.inl h
        · exact Or.inr ⟨p, Or.inl rfl, h⟩
        · exact Or.inr ⟨q, Or.inr hq, rfl⟩
      · rintro (h | ⟨q, rfl | hq, rfl⟩)
        · exact Or.inl (Or.inl h)
        · exact Or.inl (Or.inr rfl)
        · exact Or.inr ⟨q, hq, rfl⟩

theorem assignPermsLoop_nodup (rid : Nat) (perms : List Permission)
    {pairs : List (Nat × Nat)} (h : pairs.Nodup) :
    (assignPermsLoop rid perms pairs).Nodup := by
  induction perms generalizing pairs with
  | nil => simpa [assignPermsLoop]
  | cons p ps ih =>
    by_cases hp : (rid, p.id) ∈ pairs
    · simpa only [assignPermsLoop, List.foldl_cons, if_pos hp] using ih h
    · simp only [assignPermsLoop, List.foldl_cons, if_neg hp]
      refine ih ?_
      simp [List.nodup_append, h, hp]

theorem assignPermsLoop_eq_of_subset (rid : Nat) {perms : List Permission}
    {pairs : List (Nat × Nat)} (h : ∀ p ∈ perms, (rid, p.id) ∈ pairs) :
    assignPermsLoop rid perms pairs = pairs := by
  induction perms with
  | nil => rfl
  | cons p ps ih =>
    have hp : (rid, p.id) ∈ pairs := h p (List.mem_cons_self p ps)
    simp only [assignPermsLoop, List.foldl_cons, if_pos hp] at *
    exact ih (fun q hq => h q (List.mem_cons_of_mem p hq))

/-- Starting the bulk-assign fold at counter `c` shifts the resulting
count by `c` and leaves the rows unchanged. -/
theorem bulkAssignLoop_shift (rid : Nat) (users : List User)
    (pairs : List (Nat × Nat)) (c : Nat) :
    users.foldl
      (fun (acc : List (Nat × Nat) × Nat) v =>
        if (v.id, rid) ∈ acc.1 then acc else (acc.1 ++ [(v.id, rid)], acc.2 + 1))
      (pairs, c) =
    ((bulkAssignLoop rid users pairs).1, c + (bulkAssignLoop rid users pairs).2) := by
  induction users generalizing pairs c with
  | nil => simp [bulkAssignLoop]
  | cons v vs ih =>
    by_cases hv : (v.id, rid) ∈ pairs
    · simp only [bulkAssignLoop, List.foldl_cons, if_pos hv] at *
      exact ih pairs c
    · simp only [bulkAssignLoop, List.foldl_cons, if_neg hv] at *
      rw [ih (pairs ++ [(v.id, rid)]) (c + 1), ih (pairs ++ [(v.id, rid)]) 1]
      simp [Nat.add_assoc, Nat.add_comm]

/-- The per-user loop of the bulk assign endpoints: when the listed users
have pairwise distinct ids, the count is the number of users not already
holding the role, and the rows afterwards are the old ones plus one per
listed user. -/
theorem bulkAssignLoop_spec (rid : Nat) (users : List User)
    (pairs : List (Nat × Nat)) (h : (users.map (fun u => u.id)).Nodup) :
    (bulkAssignLoop rid users pairs).2 =
      (users.filter (fun u => (u.id, rid) ∉ pairs)).length ∧
    ∀ pr, pr ∈ (bulkAssignLoop rid users pairs).1 ↔
      pr ∈ pairs ∨ ∃ u ∈ users, pr = (u.id, rid) := by
  induction users generalizing pairs with
  | nil => simp [bulkAssignLoop]
  | cons u us ih =>
    have hids : (us.map (fun v => v.id)).Nodup := (List.nodup_cons.mp h).2
    have huid : u.id ∉ us.map (fun v => v.id) := (List.nodup_cons.mp h).1
    by_cases hu : (u.id, rid) ∈ pairs
    · have hrec := ih pairs hids
      constructor
      · simp only [bulkAssignLoop, List.foldl_cons, if_pos hu] at hrec ⊢
        rw [hrec.1, List.filter_cons]
        simp [hu]
      · intro pr
        simp only [bulkAssignLoop, List.foldl_cons, if_pos hu] at hrec ⊢
        rw [hrec.2 pr]
        constructor
        · rintro (hpr | ⟨v, hv, rfl⟩)
          · exact Or.inl hpr
          · exact Or.inr ⟨v, List.mem_cons_of_mem u hv, rfl⟩
        · rintro (hpr | ⟨v, hv, rfl⟩)
          · exact Or.inl hpr
          · rcases List.mem_cons.mp hv with rfl | hv
            · exact Or.inl hu
            · exact Or.inr ⟨v, hv, rfl⟩
    · have hrec := ih (pairs ++ [(u.id, rid)]) hids
      have hunfold :
          bulkAssignLoop rid (u :: us) pairs =
            ((bulkAssignLoop rid us (pairs ++ [(u.id, rid)])).1,
              1 + (bulkAssignLoop rid us (pairs ++ [(u.id, rid)])).2) := by
        simp only [bulkAssignLoop, List.foldl_cons, if_neg hu]
        exact bulkAssignLoop_shift rid us (pairs ++ [(u.id, rid)]) 1
      constructor
      · rw [hunfold]
        simp only [hrec.1, List.filter_cons]
        have hcond : ∀ v ∈ us, ((v.id, rid) ∉ pairs ++ [(u.id, rid)]) =
            ((v.id, rid) ∉ pairs) := by
          intro v hv
          have hne : v.id ≠ u.id := by
            intro hEq
            exact huid (hEq ▸ List.mem_map_of_mem (fun w => w.id) hv)
          simp [List.mem_append, hne]
        have : us.filter (fun v => (v.id, rid) ∉ pairs ++ [(u.id, rid)]) =
            us.filter (fun v => (v.id, rid) ∉ pairs) := by
          apply List.filter_congr
          intro v hv
          simpa using hcond v hv
        rw [this]
        simp [hu, Nat.add_comm]
      · intro pr
        rw [hunfold]
        simp only
        rw [hrec.2 pr]
        simp only [List.mem_append, List.mem_singleton, List.mem_cons, List.not_mem_nil, or_false]
        constructor
        · rintro ((hpr | hpr) | ⟨v, hv, rfl⟩)
          · exact Or.inl hpr
          · exact Or.inr ⟨u, Or.inl rfl, hpr⟩
          · exact Or.inr ⟨v, Or.inr hv, rfl⟩
        · rintro (hpr | ⟨v, rfl | hv, rfl⟩)
          · exact Or.inl (Or.inl hpr)
          · exact Or.inl (Or.inr rfl)
          · exact Or.inr ⟨v, hv, rfl⟩

/-- The resolver returns true exactly when the user and the permission
resolve and some held role contains the permission. -/
theorem check_true_iff (db : DB) (uid : Nat) (slug : String) :
    check_user_has_permission db uid slug = true ↔
      ∃ u, findUser db uid = some u ∧ ∃ p, get_by_slug db slug = some p ∧
        ∃ r ∈ rolesOf db uid, p ∈ permsOf db r.id := by
  unfold check_user_has_permission
  cases hu : findUser db uid with
  | none => simp
  | some u =>
    cases hp : get_by_slug db slug with
    | none => simp
    | some p => simp [List.any_eq_true]

theorem get_by_slug_ne_none_iff {db : DB} {s : String} :
    get_by_slug db s ≠ none ↔ ∃ p ∈ db.permissions, p.slug = s := by
  rw [Ne, get_by_slug_eq_none]
  push_neg
  rfl

/-- With unique slugs, looking up a singleton slug list of a stored
permission returns that permission alone. -/
theorem get_by_slugs_singleton {db : DB}
    (hnd : (db.permissions.map (fun p => p.slug)).Nodup) {p : Permission}
    (hp : p ∈ db.permissions) : get_by_slugs db [p.slug] = [p] := by
  apply eq_singleton_of_nodup ((List.Nodup.of_map _ hnd).filter _)
  · exact mem_get_by_slugs.mpr ⟨hp, by simp⟩
  · intro q hq
    obtain ⟨hqm, hqs⟩ := mem_get_by_slugs.mp hq
    simp only [List.mem_singleton] at hqs
    exact eq_of_nodup_map hnd hqm hp hqs

/-- With unique permission slugs and a duplicate-free request, the number
of resolved permissions equals the number of request slugs that resolve. -/
theorem get_by_slugs_length {db : DB} (hwf : Wf db) {slugs1 : List String}
    (hnd : slugs1.Nodup) :
    (get_by_slugs db slugs1).length =
      (slugs1.filter (fun s => get_by_slug db s ≠ none)).length := by
  have hL : ((get_by_slugs db slugs1).map (fun p => p.slug)).Nodup := by
    refine List.Nodup.sublist ?_ (wf_permSlugs_nodup hwf)
    exact List.Sublist.map _ (List.filter_sublist _)
  have hR : (slugs1.filter (fun s => get_by_slug db s ≠ none)).Nodup :=
    hnd.filter _
  have hmem : ∀ s, s ∈ (get_by_slugs db slugs1).map (fun p => p.slug) ↔
      s ∈ slugs1.filter (fun s => get_by_slug db s ≠ none) := by
    intro s
    simp only [List.mem_map, List.mem_filter, decide_eq_true_eq]
    constructor
    · rintro ⟨p, hpmem, rfl⟩
      obtain ⟨hpm, hps⟩ := mem_get_by_slugs.mp hpmem
      exact ⟨hps, get_by_slug_ne_none_iff.mpr ⟨p, hpm, rfl⟩⟩
    · rintro ⟨hs, hne⟩
      obtain ⟨p, hpm, hps⟩ := get_by_slug_ne_none_iff.mp hne
      exact ⟨p, mem_get_by_slugs.mpr ⟨hpm, hps ▸ hs⟩, hps⟩
  have hperm := (List.perm_ext_iff_of_nodup hL hR).mpr hmem
  calc (get_by_slugs db slugs1).length
      = ((get_by_slugs db slugs1).map (fun p => p.slug)).length := (List.length_map _ _).symm
    _ = (slugs1.filter (fun s => get_by_slug db s ≠ none)).length := hperm.length_eq

/-- The length check of `assign_permissions_to_role` fires exactly when
some requested slug resolves to no permission. -/
theorem assign_missing_iff {db : DB} (hwf : Wf db) {slugs1 : List String}
    (hnd : slugs1.Nodup) :
    (get_by_slugs db slugs1).length ≠ slugs1.length ↔
      ∃ s ∈ slugs1, get_by_slug db s = none := by
  rw [get_by_slugs_length hwf hnd]
  constructor
  · intro hne
    by_contra hno
    push_neg at hno
    have : slugs1.filter (fun s => get_by_slug db s ≠ none) = slugs1 := by
      apply List.filter_eq_self.mpr
      intro s hs
      simpa using hno s hs
    exact hne (by rw [this])
  · rintro ⟨s, hs, hnone⟩ hlen
    have heq : slugs1.filter (fun s => get_by_slug db s ≠ none) = slugs1 :=
      List.Sublist.eq_of_length (List.filter_sublist _) hlen
    have hmem : s ∈ slugs1.filter (fun s => get_by_slug db s ≠ none) := by
      rw [heq]
      exact hs
    have := (List.mem_filter.mp hmem).2
    simp [hnone] at this

/-- The missing-slug list reported by `assign_permissions_to_role` is
exactly the requested slugs that resolve to no permission. -/
theorem assign_missing_list_eq (db : DB) (slugs1 : List String) :
    slugs1.filter (fun s => s ∉ (get_by_slugs db slugs1).map (fun p => p.slug)) =
      slugs1.filter (fun s => get_by_slug db s = none) := by
  apply List.filter_congr
  intro s hs
  by_cases hx : get_by_slug db s = none
  · have hnot : ∀ p ∈ get_by_slugs db slugs1, ¬ p.slug = s := by
      intro p hp
      exact (get_by_slug_eq_none.mp hx) p (mem_get_by_slugs.mp hp).1
    simp [hx, List.mem_map]
    simpa using hnot
  · obtain ⟨p, hpm, hps⟩ := get_by_slug_ne_none_iff.mp hx
    have hsm : s ∈ (get_by_slugs db slugs1).map (fun p => p.slug) :=
      List.mem_map.mpr ⟨p, mem_get_by_slugs.mpr ⟨hpm, hps ▸ hs⟩, hps⟩
    simp [hx, hsm]

/-! Claim theorems. -/

/-- C2, counterexample: the claim extends the false-not-error contract to
the endpoint `GET /permissions/users/{user_id}/check/{permission_slug}`,
but at a missing user (and likewise at a missing permission slug) the
endpoint raises 404 NotFound while the resolver returns false. -/
theorem c2_counterexample :
    check_user_has_permission exEmpty 1 ("documents.read") = false
    ∧ check_user_permission exEmpty 1 ("documents.read") =
        Except.error ⟨404, "User not found"⟩
    ∧ check_user_has_permission exDB 1 ("no.such.permission") = false
    ∧ check_user_permission exDB 1 ("no.such.permission") =
        Except.error ⟨404, "Permission not found"⟩ :=
  ⟨rfl, rfl, rfl, rfl⟩

/-- C2 (amended): the resolver `user_has_permission` returns true iff the
permission resolved by slug belongs to the permission set of at least one
role the user holds, and returns false (not an error) when the user id or
the slug does not resolve; the check endpoint, by contrast, fails with
NotFound for a missing user or permission, and on success its
`has_permission` field agrees with the resolver. -/
theorem c2_resolver_false_endpoint_404 (db : DB) (uid : Nat) (slug : String) :
    (findUser db uid = none →
      check_user_has_permission db uid slug = false
      ∧ check_user_permission db uid slug = Except.error ⟨404, "User not found"⟩)
  ∧ (∀ u, findUser db uid = some u → get_by_slug db slug = none →
      check_user_has_permission db uid slug = false
      ∧ check_user_permission db uid slug = Except.error ⟨404, "Permission not found"⟩)
  ∧ (check_user_has_permission db uid slug = true ↔
      ∃ u, findUser db uid = some u ∧ ∃ p, get_by_slug db slug = some p ∧
        ∃ r ∈ rolesOf db uid, p ∈ permsOf db r.id)
  ∧ (∀ u p, findUser db uid = some u → get_by_slug db slug = some p →
      ∃ resp, check_user_permission db uid slug = Except.ok resp
        ∧ resp.has_permission = check_user_has_permission db uid slug) := by
  refine ⟨?_, ?_, check_true_iff db uid slug, ?_⟩
  · intro h
    constructor
    · simp [check_user_has_permission, h]
    · simp [check_user_permission, h]
  · intro u hu hp
    constructor
    · simp [check_user_has_permission, hu, hp]
    · simp [check_user_permission, hu, hp]
  · intro u p hu hp
    obtain ⟨humem, huid⟩ := findUser_eq_some hu
    have hend : check_user_permission db uid slug = Except.ok
        ⟨u.id, slug, (rolesOf db u.id).any (fun r => p ∈ permsOf db r.id),
          ((rolesOf db u.id).filter (fun r => p ∈ permsOf db r.id)).map
            (fun r => r.name)⟩ := by
      simp only [check_user_permission, hu, hp]
      rw [check_fold_spec]
      simp
    refine ⟨_, hend, ?_⟩
    simp only [check_user_has_permission, hu, hp]
    rw [huid]

/-- C8, counterexample: the slug `a` matches `^[a-z0-9_.-]+$` yet
`create_permission` rejects it with a 422 validation error, because the
schema also requires `min_length=2`. -/
theorem c8_counterexample :
    re_match_slug ("a") = true
    ∧ create_permission exEmpty ("a") none =
        Except.error ⟨422, "String should have at least 2 characters"⟩ :=
  ⟨rfl, rfl⟩

/-- C8 (amended): `create_permission` fails with Conflict (400, writing no
row) when a permission with the slug already exists; it fails with
InvalidArgument (422) exactly when the slug fails schema validation, which
requires the pattern `^[a-z0-9_.-]+$` (Python `re` semantics) AND a length
between 2 and 191; it accepts every slug passing that validation. -/
theorem c8_create_permission_validation (db : DB) (slug : String) (d : Option String) :
    (slug.length < 2 →
      create_permission db slug d =
        Except.error ⟨422, "String should have at least 2 characters"⟩)
  ∧ (slug.length > 191 →
      2 ≤ slug.length →
      create_permission db slug d =
        Except.error ⟨422, "String should have at most 191 characters"⟩)
  ∧ (2 ≤ slug.length → slug.length ≤ 191 → re_match_slug slug = false →
      create_permission db slug d = Except.error ⟨422,
        "Slug can only contain lowercase letters, numbers, hyphens, underscores, and dots"⟩)
  ∧ (∀ p, 2 ≤ slug.length → slug.length ≤ 191 → re_match_slug slug = true →
      get_by_slug db slug = some p →
      create_permission db slug d = Except.error ⟨400,
        "Permission with slug \x27" ++ slug ++ "\x27 already exists"⟩
      ∧ stateAfter db (create_permission db slug d) = db)
  ∧ (2 ≤ slug.length → slug.length ≤ 191 → re_match_slug slug = true →
      get_by_slug db slug = none →
      ∃ p db2, create_permission db slug d = Except.ok (p, db2)
        ∧ p.slug = slug ∧ db2.permissions = db.permissions ++ [p]) := by
  refine ⟨?_, ?_, ?_, ?_, ?_⟩
  · intro h1
    simp only [create_permission]
    rw [if_pos h1]
  · intro h191 h2
    simp only [create_permission]
    rw [if_neg (by omega), if_pos h191]
  · intro h2 h191 hre
    simp only [create_permission]
    rw [if_neg (by omega), if_neg (by omega), if_pos (by simp [hre])]
  · intro p h2 h191 hre hp
    have herr : create_permission db slug d = Except.error ⟨400,
        "Permission with slug \x27" ++ slug ++ "\x27 already exists"⟩ := by
      simp only [create_permission]
      rw [if_neg (by omega), if_neg (by omega), if_neg (by simp [hre])]
      simp only [hp]
    refine ⟨herr, ?_⟩
    rw [herr]
    rfl
  · intro h2 h191 hre hnone
    simp only [create_permission]
    rw [if_neg (by omega), if_neg (by omega), if_neg (by simp [hre])]
    simp only [hnone]
    exact ⟨_, _, rfl, rfl, rfl⟩

/-- C9: on every successful response of the user-permission check endpoint,
`granted_via_roles` is exactly the (ordered) list of names of the held
roles whose permission set contains the checked permission, and
`has_permission` is true iff that list is non-empty. -/
theorem c9_check_endpoint_consistency (db : DB) (uid : Nat) (slug : String)
    (u : User) (p : Permission)
    (hu : findUser db uid = some u) (hp : get_by_slug db slug = some p) :
    ∃ resp, check_user_permission db uid slug = Except.ok resp
      ∧ resp.granted_via_roles =
          ((rolesOf db uid).filter (fun r => p ∈ permsOf db r.id)).map
            (fun r => r.name)
      ∧ (resp.has_permission = true ↔ resp.granted_via_roles ≠ [])
      ∧ (∀ n, n ∈ resp.granted_via_roles ↔
          ∃ r ∈ rolesOf db uid, r.name = n ∧ p ∈ permsOf db r.id) := by
  obtain ⟨humem, huid⟩ := findUser_eq_some hu
  have hend : check_user_permission db uid slug = Except.ok
      ⟨u.id, slug, (rolesOf db u.id).any (fun r => p ∈ permsOf db r.id),
        ((rolesOf db u.id).filter (fun r => p ∈ permsOf db r.id)).map
          (fun r => r.name)⟩ := by
    simp only [check_user_permission, hu, hp]
    rw [check_fold_spec]
    simp
  rw [huid] at hend
  refine ⟨_, hend, rfl, ?_, ?_⟩
  · simp only [List.any_eq_true, decide_eq_true_eq, Ne,
      List.map_eq_nil_iff, List.filter_eq_nil_iff]
    push_neg
    constructor
    · rintro ⟨r, hr, hmem⟩
      exact ⟨r, hr, by simpa using hmem⟩
    · rintro ⟨r, hr, hmem⟩
      exact ⟨r, hr, by simpa using hmem⟩
  · intro n
    simp only [List.mem_map, List.mem_filter, decide_eq_true_eq]
    constructor
    · rintro ⟨r, ⟨hr, hmem⟩, rfl⟩
      exact ⟨r, hr, rfl, hmem⟩
    · rintro ⟨r, hr, rfl, hmem⟩
      exact ⟨r, ⟨hr, hmem⟩, rfl⟩

/-- C7, counterexample: bulk-assigning a role to five user ids of which two
do not exist does not yield `success_count=3, failed_count=2`.  The primary
endpoint `POST /role/assign/bulk` rejects the whole batch with 404
`Some users not found`, and the alternative endpoint `POST /role/bulk/assign`
reports `success_count=3, failed_count=0`: missing ids are silently dropped
and never counted as failures. -/
theorem c7_counterexample :
    bulk_assign_role exBulkDB [1, 2, 3, 4, 5] 40 =
      Except.error ⟨404, "Some users not found"⟩
    ∧ (bulk_assign_roles_alt exBulkDB [1, 2, 3, 4, 5] 40).toOption.map
        (fun x => x.1) = some ⟨3, 0⟩ :=
  ⟨rfl, rfl⟩

/-- C7 (amended): bulk role assignment is not best-effort over missing
users.  `POST /role/assign/bulk` fails with NotFound (`Some users not
found`) as soon as the resolved users are fewer than the requested ids,
performing no assignment; `POST /role/bulk/assign` silently ignores ids
that resolve to no user, assigns the role to every resolved user not
already holding it, commits those assignments, and always reports
`failed_count = 0` with `success_count` the number of users newly
assigned. -/
theorem c7_bulk_assign_not_best_effort (db : DB) (rid : Nat) (role : Role)
    (userIds : List Nat) (hwf : Wf db) (hrole : findRole db rid = some role) :
    ((db.users.filter (fun u => u.id ∈ userIds)).length ≠ userIds.length →
      bulk_assign_role db userIds rid = Except.error ⟨404, "Some users not found"⟩)
  ∧ ∃ db2,
      bulk_assign_roles_alt db userIds rid = Except.ok
        (⟨((db.users.filter (fun u => u.id ∈ userIds)).filter
            (fun u => (u.id, role.id) ∉ db.userRoles)).length, 0⟩, db2)
      ∧ (∀ u ∈ db.users.filter (fun u => u.id ∈ userIds),
          (u.id, role.id) ∈ db2.userRoles)
      ∧ (∀ pr, pr ∈ db2.userRoles ↔ pr ∈ db.userRoles ∨
          ∃ u ∈ db.users.filter (fun v => v.id ∈ userIds), pr = (u.id, role.id)) := by
  have hids : ((db.users.filter (fun u => u.id ∈ userIds)).map
      (fun u => u.id)).Nodup :=
    List.Nodup.sublist (List.Sublist.map _ (List.filter_sublist _))
      (wf_users_nodup hwf)
  obtain ⟨hcount, hmem⟩ := bulkAssignLoop_spec role.id
    (db.users.filter (fun u => u.id ∈ userIds)) db.userRoles hids
  constructor
  · intro hlen
    simp only [bulk_assign_role, hrole]
    rw [if_pos hlen]
  · refine ⟨{ db with userRoles := (bulkAssignLoop role.id
      (db.users.filter (fun u => u.id ∈ userIds)) db.userRoles).1 }, ?_, ?_, ?_⟩
    · simp only [bulk_assign_roles_alt, hrole, hcount]
    · intro u hu
      exact (hmem _).mpr (Or.inr ⟨u, hu, rfl⟩)
    · intro pr
      exact hmem pr

/-- C10: the admin gates of `update_user` and `delete_user` lower-case role
names before comparing with `admin`, so roles named `Admin`, `ADMIN` or
`admin` all pass, unlike the `require_role` decorator which compares names
exactly; a caller who is neither such an admin nor (for update) the target
receives 403 PermissionDenied and nothing is committed. -/
theorem c10_admin_gate_case_insensitive (db : DB) (cu : User) (uid : Nat) :
    (isAdminGate db cu = true ↔
      ∃ r ∈ rolesOf db cu.id, lowerStr r.name = "admin")
  ∧ (∀ rname, require_role_check db cu rname = true ↔
      ∃ r ∈ rolesOf db cu.id, r.name = rname)
  ∧ (∀ rname, (rname = "Admin" ∨ rname = "ADMIN" ∨ rname = "admin") →
      (∃ r ∈ rolesOf db cu.id, r.name = rname) → isAdminGate db cu = true)
  ∧ (isAdminGate db cu = false → cu.id ≠ uid →
      ∀ target, findUser db uid = some target →
      (∀ nn ne, update_user db uid cu nn ne =
          Except.error ⟨403, "Cannot update other users"⟩
        ∧ stateAfter db (update_user db uid cu nn ne) = db)
      ∧ (delete_user db uid cu =
          Except.error ⟨403, "Admin role required to delete users"⟩
        ∧ stateAfter db (delete_user db uid cu) = db))
  ∧ (isAdminGate exAdminDB ⟨7, "Root", "root@example.com"⟩ = true
      ∧ require_role_check exAdminDB ⟨7, "Root", "root@example.com"⟩ ("Admin") = false
      ∧ require_role_check exAdminDB ⟨7, "Root", "root@example.com"⟩ ("admin") = false) := by
  have hgateiff : isAdminGate db cu = true ↔
      ∃ r ∈ rolesOf db cu.id, lowerStr r.name = "admin" := by
    simp [isAdminGate, List.mem_map]
  refine ⟨hgateiff, ?_, ?_, ?_, ?_⟩
  · intro rname
    simp [require_role_check, List.mem_map]
  · rintro rname hs ⟨r, hr, hname⟩
    apply hgateiff.mpr
    refine ⟨r, hr, ?_⟩
    rw [hname]
    rcases hs with rfl | rfl | rfl <;> decide
  · intro hgate hne target htarget
    have hcond : ¬ isAdminGate db cu ∧ ¬ (cu.id = uid) :=
      ⟨by simp [hgate], hne⟩
    constructor
    · intro nn ne
      have herr : update_user db uid cu nn ne =
          Except.error ⟨403, "Cannot update other users"⟩ := by
        simp only [update_user, htarget]
        rw [if_pos hcond]
      exact ⟨herr, by rw [herr]; rfl⟩
    · have herr : delete_user db uid cu =
          Except.error ⟨403, "Admin role required to delete users"⟩ := by
        simp only [delete_user, htarget]
        rw [if_pos hcond.1]
      exact ⟨herr, by rw [herr]; rfl⟩
  · exact ⟨by decide, by decide, by decide⟩

/-- C6: `delete_role` fails with Conflict (400) when at least one user
still holds the role, leaving the store untouched; with no remaining
member the role row is deleted together with every `role_permissions`
join row (and every `user_role` row) referencing it, so no orphaned join
rows remain. -/
theorem c6_delete_role_conflict_or_cascade (db : DB) (rid : Nat) (role : Role)
    (hrole : findRole db rid = some role) :
    ((∃ u ∈ db.users, (u.id, role.id) ∈ db.userRoles) →
      delete_role db rid = Except.error ⟨400,
        "Cannot delete role. " ++ toString (usersOf db role.id).length ++
          " users still have this role"⟩
      ∧ stateAfter db (delete_role db rid) = db)
  ∧ ((∀ u ∈ db.users, (u.id, role.id) ∉ db.userRoles) →
      ∃ m db2, delete_role db rid = Except.ok (m, db2)
        ∧ findRole db2 rid = none
        ∧ (∀ pr, pr ∈ db2.rolePermissions ↔
            pr ∈ db.rolePermissions ∧ pr.1 ≠ role.id)
        ∧ (∀ pr, pr ∈ db2.userRoles ↔ pr ∈ db.userRoles ∧ pr.2 ≠ role.id)) := by
  obtain ⟨hrmem, hrid⟩ := findRole_eq_some hrole
  constructor
  · rintro ⟨u, hu, hpair⟩
    have hpos : 0 < (usersOf db role.id).length :=
      List.length_pos_of_mem (mem_usersOf.mpr ⟨hu, hpair⟩)
    have herr : delete_role db rid = Except.error ⟨400,
        "Cannot delete role. " ++ toString (usersOf db role.id).length ++
          " users still have this role"⟩ := by
      simp only [delete_role, hrole]
      rw [if_pos hpos]
    exact ⟨herr, by rw [herr]; rfl⟩
  · intro hnone
    have hempty : usersOf db role.id = [] := by
      apply List.eq_nil_iff_forall_not_mem.mpr
      intro u hu
      obtain ⟨hum, hup⟩ := mem_usersOf.mp hu
      exact hnone u hum hup
    have hcond : ¬ ((usersOf db role.id).length > 0) := by
      rw [hempty]
      simp
    have hok : delete_role db rid = Except.ok ("Role deleted successfully",
        { db with
          roles := db.roles.filter (fun r => r.id ≠ role.id)
          userRoles := db.userRoles.filter (fun pr => pr.2 ≠ role.id)
          rolePermissions := db.rolePermissions.filter (fun pr => pr.1 ≠ role.id) }) := by
      simp only [delete_role, hrole]
      rw [if_neg hcond]
    refine ⟨_, _, hok, ?_, ?_, ?_⟩
    · apply List.find?_eq_none.mpr
      intro r hr
      have hne := (List.mem_filter.mp hr).2
      simp only [decide_eq_true_eq] at hne ⊢
      rw [← hrid]
      simpa using hne
    · intro pr
      simp [List.mem_filter]
    · intro pr
      simp [List.mem_filter]

/-- C5: `assign_role_to_user` fails with 404 NotFound for a missing user or
role and with 400 `User already has this role` (Conflict in the spec
taxonomy) for a duplicate membership, else afterwards `user_has_role` is
true; `unassign_role_from_user` fails with 404 for a missing user or role
and with 400 `User does not have this role` (InvalidArgument in the spec
taxonomy) when the membership is absent, else afterwards `user_has_role`
is false. -/
theorem c5_role_assignment_lifecycle (db : DB) (uid rid : Nat) (hwf : Wf db) :
    (findUser db uid = none →
      assign_role_to_user db uid rid = Except.error ⟨404, "User not found"⟩
      ∧ unassign_role_from_user db uid rid = Except.error ⟨404, "User not found"⟩)
  ∧ (∀ u, findUser db uid = some u → findRole db rid = none →
      assign_role_to_user db uid rid = Except.error ⟨404, "Role not found"⟩
      ∧ unassign_role_from_user db uid rid = Except.error ⟨404, "Role not found"⟩)
  ∧ (∀ u role, findUser db uid = some u → findRole db rid = some role →
      ((uid, rid) ∈ db.userRoles →
        assign_role_to_user db uid rid =
          Except.error ⟨400, "User already has this role"⟩)
      ∧ ((uid, rid) ∉ db.userRoles →
        ∃ m db2, assign_role_to_user db uid rid = Except.ok (m, db2)
          ∧ check_user_role_by_get db2 uid role.name = Except.ok true)
      ∧ ((uid, rid) ∉ db.userRoles →
        unassign_role_from_user db uid rid =
          Except.error ⟨400, "User does not have this role"⟩)
      ∧ ((uid, rid) ∈ db.userRoles →
        ∃ m db2, unassign_role_from_user db uid rid = Except.ok (m, db2)
          ∧ check_user_role_by_get db2 uid role.name = Except.ok false)) := by
  refine ⟨?_, ?_, ?_⟩
  · intro h
    constructor
    · simp [assign_role_to_user, h]
    · simp [unassign_role_from_user, h]
  · intro u hu hr
    constructor
    · simp [assign_role_to_user, hu, hr]
    · simp [unassign_role_from_user, hu, hr]
  · intro u role hu hrole
    obtain ⟨humem, huid⟩ := findUser_eq_some hu
    obtain ⟨hrmem, hrid⟩ := findRole_eq_some hrole
    have hheld_iff : role ∈ rolesOf db u.id ↔ (uid, rid) ∈ db.userRoles := by
      rw [mem_rolesOf, huid, hrid]
      exact ⟨fun h => h.2, fun h => ⟨hrmem, h⟩⟩
    refine ⟨?_, ?_, ?_, ?_⟩
    · intro hmem
      simp only [assign_role_to_user, hu, hrole]
      rw [if_pos (hheld_iff.mpr hmem)]
    · intro hmem
      have hok : assign_role_to_user db uid rid = Except.ok ("Role assigned",
          { db with userRoles := db.userRoles ++ [(u.id, role.id)] }) := by
        simp only [assign_role_to_user, hu, hrole]
        rw [if_neg (fun hc => hmem (hheld_iff.mp hc))]
      refine ⟨_, _, hok, ?_⟩
      have hu2 : findUser { db with userRoles := db.userRoles ++ [(u.id, role.id)] } uid = some u := hu
      have hn2 : findRoleByName { db with userRoles := db.userRoles ++ [(u.id, role.id)] } role.name = some role :=
        findRoleByName_self (wf_roleNames_nodup hwf) hrmem
      simp only [check_user_role_by_get, hu2, hn2]
      simp only [Except.ok.injEq, decide_eq_true_eq]
      rw [mem_rolesOf]
      exact ⟨hrmem, by simp [huid]⟩
    · intro hmem
      simp only [unassign_role_from_user, hu, hrole]
      rw [if_pos (fun hc => hmem (hheld_iff.mp hc))]
    · intro hmem
      have hok : unassign_role_from_user db uid rid = Except.ok ("Role removed",
          { db with userRoles := listRemove (u.id, role.id) db.userRoles }) := by
        simp only [unassign_role_from_user, hu, hrole]
        rw [if_neg (fun hc => (hc (hheld_iff.mpr hmem)).elim)]
      refine ⟨_, _, hok, ?_⟩
      have hu2 : findUser { db with userRoles := listRemove (u.id, role.id) db.userRoles } uid = some u := hu
      have hn2 : findRoleByName { db with userRoles := listRemove (u.id, role.id) db.userRoles } role.name = some role :=
        findRoleByName_self (wf_roleNames_nodup hwf) hrmem
      simp only [check_user_role_by_get, hu2, hn2]
      simp only [Except.ok.injEq, decide_eq_false_iff_not]
      rw [mem_rolesOf]
      rintro ⟨_, habs⟩
      rw [huid] at habs
      exact not_mem_listRemove (wf_userRoles_nodup hwf) habs

/-- The store committed by a successful `assign_permissions_to_role` call. -/
def assignResultDB (db : DB) (rid : Nat) (slugs1 : List String) : DB :=
  { db with rolePermissions :=
      assignPermsLoop rid (get_by_slugs db slugs1) db.rolePermissions }

/-- The response of a successful `assign_permissions_to_role` call. -/
def assignResultResp (db : DB) (rid : Nat) (slugs1 : List String)
    (role : Role) : RolePermissionResponse :=
  ⟨role.id, role.name, role.slug, permsOf (assignResultDB db rid slugs1) rid,
    (permsOf (assignResultDB db rid slugs1) rid).length⟩

/-- Re-assigning permissions the role already holds leaves the committed
store unchanged. -/
theorem assignResultDB_eq_self (db2 : DB) (rid : Nat) (slugs1 : List String)
    (h : ∀ q ∈ get_by_slugs db2 slugs1, (rid, q.id) ∈ db2.rolePermissions) :
    assignResultDB db2 rid slugs1 = db2 := by
  unfold assignResultDB
  rw [assignPermsLoop_eq_of_subset rid h]

/-- Success equation for `assign_permissions_to_role`. -/
theorem assign_ok_eq (db : DB) (rid : Nat) (slugs : List String) (role : Role)
    (hrole : findRole db rid = some role)
    (hcond : ¬ ((get_by_slugs db (uniqueKeepFirst slugs)).length ≠
      (uniqueKeepFirst slugs).length)) :
    assign_permissions_to_role db rid slugs = Except.ok
      (assignResultResp db rid (uniqueKeepFirst slugs) role,
        assignResultDB db rid (uniqueKeepFirst slugs)) := by
  simp only [assign_permissions_to_role, hrole, assignResultResp, assignResultDB]
  rw [if_neg hcond]

/-- C3: `assign_permissions_to_role` fails with 404 NotFound when the role
id does not exist; when any requested slug does not resolve it fails with
404 listing exactly the missing slugs and commits nothing (no resolved
permission is added); otherwise it succeeds and every resolved permission
is added to the role's set (and nothing else). -/
theorem c3_assign_permissions_error_handling (db : DB) (rid : Nat)
    (slugs : List String) (hwf : Wf db) :
    (findRole db rid = none →
      assign_permissions_to_role db rid slugs = Except.error ⟨404, "Role not found"⟩)
  ∧ (∀ role, findRole db rid = some role →
      ((∃ s ∈ uniqueKeepFirst slugs, get_by_slug db s = none) →
        assign_permissions_to_role db rid slugs = Except.error ⟨404,
          "Permissions not found: " ++ String.intercalate (", ")
            ((uniqueKeepFirst slugs).filter (fun s => get_by_slug db s = none))⟩
        ∧ stateAfter db (assign_permissions_to_role db rid slugs) = db)
      ∧ ((∀ s ∈ uniqueKeepFirst slugs, get_by_slug db s ≠ none) →
        ∃ resp db2, assign_permissions_to_role db rid slugs = Except.ok (resp, db2)
          ∧ (∀ s p, s ∈ uniqueKeepFirst slugs → get_by_slug db s = some p →
              (rid, p.id) ∈ db2.rolePermissions)
          ∧ (∀ pr, pr ∈ db2.rolePermissions ↔ pr ∈ db.rolePermissions ∨
              ∃ p ∈ get_by_slugs db (uniqueKeepFirst slugs), pr = (rid, p.id)))) := by
  have hnd : (uniqueKeepFirst slugs).Nodup := uniqueKeepFirst_nodup slugs
  constructor
  · intro h
    simp [assign_permissions_to_role, h]
  · intro role hrole
    constructor
    · rintro ⟨s, hs, hnone⟩
      have hmiss : (get_by_slugs db (uniqueKeepFirst slugs)).length ≠
          (uniqueKeepFirst slugs).length :=
        (assign_missing_iff hwf hnd).mpr ⟨s, hs, hnone⟩
      have herr : assign_permissions_to_role db rid slugs = Except.error ⟨404,
          "Permissions not found: " ++ String.intercalate (", ")
            ((uniqueKeepFirst slugs).filter (fun s => get_by_slug db s = none))⟩ := by
        simp only [assign_permissions_to_role, hrole]
        rw [if_pos hmiss, assign_missing_list_eq]
      exact ⟨herr, by rw [herr]; rfl⟩
    · intro hall
      have hcond : ¬ ((get_by_slugs db (uniqueKeepFirst slugs)).length ≠
          (uniqueKeepFirst slugs).length) := by
        intro hne
        obtain ⟨s, hs, hnone⟩ := (assign_missing_iff hwf hnd).mp hne
        exact hall s hs hnone
      refine ⟨_, _, assign_ok_eq db rid slugs role hrole hcond, ?_, ?_⟩
      · intro s p hs hp
        show (rid, p.id) ∈ assignPermsLoop rid
          (get_by_slugs db (uniqueKeepFirst slugs)) db.rolePermissions
        apply (assignPermsLoop_mem rid _ _ _).mpr
        right
        obtain ⟨hpm, hps⟩ := get_by_slug_eq_some hp
        exact ⟨p, mem_get_by_slugs.mpr ⟨hpm, hps ▸ hs⟩, rfl⟩
      · intro pr
        exact assignPermsLoop_mem rid _ _ pr

/-- C4: with every requested slug resolving, `assign_permissions_to_role`
succeeds, each requested permission ends up with exactly one occurrence in
the role's permission set and exactly one `role_permissions` join row
(also when the role already held it or the slug was requested twice, since
the request is de-duplicated and the loop skips held permissions), and
re-running the call returns the same response — same `total_permissions` —
and the same store, with no error. -/
theorem c4_assign_permissions_idempotent (db : DB) (rid : Nat)
    (slugs : List String) (role : Role) (hwf : Wf db)
    (hrole : findRole db rid = some role)
    (hall : ∀ s ∈ uniqueKeepFirst slugs, get_by_slug db s ≠ none) :
    ∃ resp db2, assign_permissions_to_role db rid slugs = Except.ok (resp, db2)
      ∧ (∀ p, p.slug ∈ uniqueKeepFirst slugs → get_by_slug db p.slug = some p →
          ((permsOf db2 rid).filter (fun q => q = p)).length = 1
          ∧ (db2.rolePermissions.filter (fun pr => pr = (rid, p.id))).length = 1)
      ∧ assign_permissions_to_role db2 rid slugs = Except.ok (resp, db2) := by
  have hnd : (uniqueKeepFirst slugs).Nodup := uniqueKeepFirst_nodup slugs
  have hcond : ¬ ((get_by_slugs db (uniqueKeepFirst slugs)).length ≠
      (uniqueKeepFirst slugs).length) := by
    intro hne
    obtain ⟨s, hs, hnone⟩ := (assign_missing_iff hwf hnd).mp hne
    exact hall s hs hnone
  refine ⟨_, _, assign_ok_eq db rid slugs role hrole hcond, ?_, ?_⟩
  · intro p hs hp
    have hpm : p ∈ db.permissions := (get_by_slug_eq_some hp).1
    have hpmem : p ∈ get_by_slugs db (uniqueKeepFirst slugs) :=
      mem_get_by_slugs.mpr ⟨hpm, hs⟩
    have hpair : (rid, p.id) ∈ assignPermsLoop rid
        (get_by_slugs db (uniqueKeepFirst slugs)) db.rolePermissions :=
      (assignPermsLoop_mem rid _ _ _).mpr (Or.inr ⟨p, hpmem, rfl⟩)
    constructor
    · have hperm_nd : (permsOf (assignResultDB db rid (uniqueKeepFirst slugs))
          rid).Nodup :=
        (List.Nodup.of_map _ (wf_permIds_nodup hwf)).filter _
      refine filter_eq_length_one_of_nodup hperm_nd ?_
      exact mem_permsOf.mpr ⟨hpm, hpair⟩
    · have hpairs_nd : (assignResultDB db rid
          (uniqueKeepFirst slugs)).rolePermissions.Nodup :=
        assignPermsLoop_nodup rid _ (wf_rolePerms_nodup hwf)
      exact filter_eq_length_one_of_nodup hpairs_nd hpair
  · have hrole2 : findRole (assignResultDB db rid (uniqueKeepFirst slugs)) rid =
        some role := hrole
    have hcond2 : ¬ ((get_by_slugs (assignResultDB db rid (uniqueKeepFirst slugs))
        (uniqueKeepFirst slugs)).length ≠ (uniqueKeepFirst slugs).length) := hcond
    have hrun2 := assign_ok_eq (assignResultDB db rid (uniqueKeepFirst slugs))
      rid slugs role hrole2 hcond2
    have hsub : ∀ q ∈ get_by_slugs (assignResultDB db rid (uniqueKeepFirst slugs))
        (uniqueKeepFirst slugs),
        (rid, q.id) ∈ (assignResultDB db rid (uniqueKeepFirst slugs)).rolePermissions :=
      fun q hq => (assignPermsLoop_mem rid _ _ _).mpr (Or.inr ⟨q, hq, rfl⟩)
    have hdb2 : assignResultDB (assignResultDB db rid (uniqueKeepFirst slugs)) rid
        (uniqueKeepFirst slugs) = assignResultDB db rid (uniqueKeepFirst slugs) :=
      assignResultDB_eq_self _ rid _ hsub
    have hresp : assignResultResp (assignResultDB db rid (uniqueKeepFirst slugs))
        rid (uniqueKeepFirst slugs) role =
        assignResultResp db rid (uniqueKeepFirst slugs) role := by
      simp only [assignResultResp, hdb2]
    rw [hrun2, hdb2, hresp]

/-- The store committed by a successful `unassign_permissions_from_role`
call that removes one held permission. -/
def unassignSingleDB (db : DB) (rid pid : Nat) : DB :=
  { db with rolePermissions := listRemove (rid, pid) db.rolePermissions }

/-- Success equation for `unassign_permissions_from_role` on a single held
slug. -/
theorem unassign_single_ok_eq (db : DB) {r : Role} {p : Permission}
    (hwf : Wf db) (hr : r ∈ db.roles) (hp : p ∈ db.permissions)
    (hheld : (r.id, p.id) ∈ db.rolePermissions) :
    unassign_permissions_from_role db r.id [p.slug] = Except.ok
      (⟨r.id, r.name, r.slug, permsOf (unassignSingleDB db r.id p.id) r.id,
        (permsOf (unassignSingleDB db r.id p.id) r.id).length⟩,
      unassignSingleDB db r.id p.id) := by
  have hukf : uniqueKeepFirst [p.slug] = [p.slug] := by
    simp [uniqueKeepFirst]
  have hrole : findRole db r.id = some r := findRole_self (wf_roles_nodup hwf) hr
  have hslugs : get_by_slugs db [p.slug] = [p] :=
    get_by_slugs_singleton (wf_permSlugs_nodup hwf) hp
  have hloop : unassignPermsLoop r.id [p] db.rolePermissions =
      listRemove (r.id, p.id) db.rolePermissions := by
    simp [unassignPermsLoop, hheld]
  simp only [unassign_permissions_from_role, hukf, hrole, hslugs, hloop,
    unassignSingleDB]

/-- C1: for every existing user the resolver `get_user_permissions` (and
the `GET /permissions/users/{id}/permissions` endpoint) returns the
de-duplicated union, over all held roles, of the roles' permission sets;
consequently every permission granted through a held role passes
`check_user_has_permission`, and after unassigning permission `p` from
role `r` the check turns false for a user holding only `r`, while a user
also holding another role that still grants `p` keeps passing. -/
theorem c1_effective_permissions_union (db : DB) (uid : Nat) (u : User)
    (hwf : Wf db) (hu : findUser db uid = some u) :
    (∀ s, s ∈ get_user_permissions db uid ↔
        ∃ r ∈ rolesOf db uid, ∃ p ∈ permsOf db r.id, p.slug = s)
  ∧ (get_user_permissions db uid).Nodup
  ∧ (∀ l, get_user_permissions_endpoint db uid = Except.ok l →
      ∀ p, p ∈ l ↔ ∃ r ∈ rolesOf db uid, p ∈ permsOf db r.id)
  ∧ (∀ r p, r ∈ rolesOf db uid → p ∈ permsOf db r.id →
      check_user_has_permission db uid p.slug = true)
  ∧ (∀ r p, r ∈ rolesOf db uid → p ∈ permsOf db r.id →
      ∀ resp db2,
        unassign_permissions_from_role db r.id [p.slug] = Except.ok (resp, db2) →
        (rolesOf db uid = [r] →
          check_user_has_permission db2 uid p.slug = false)
        ∧ (∀ uid2 u2 r2, findUser db uid2 = some u2 → r2 ∈ rolesOf db uid2 →
            r2.id ≠ r.id → p ∈ permsOf db r2.id →
            check_user_has_permission db2 uid2 p.slug = true)) := by
  obtain ⟨humem, huid⟩ := findUser_eq_some hu
  refine ⟨?_, ?_, ?_, ?_, ?_⟩
  · intro s
    simp only [get_user_permissions, hu, List.mem_dedup, List.mem_map,
      List.mem_flatMap]
    constructor
    · rintro ⟨p, ⟨r, hr, hp⟩, rfl⟩
      exact ⟨r, hr, p, hp, rfl⟩
    · rintro ⟨r, hr, p, hp, rfl⟩
      exact ⟨p, ⟨r, hr, hp⟩, rfl⟩
  · simp only [get_user_permissions, hu]
    exact List.nodup_dedup _
  · intro l hl p
    simp only [get_user_permissions_endpoint, hu] at hl
    have hl2 := Except.ok.inj hl
    rw [← hl2, huid]
    simp only [List.mem_dedup, List.mem_flatMap]
  · intro r p hr hp
    rw [check_true_iff]
    exact ⟨u, hu, p, get_by_slug_self (wf_permSlugs_nodup hwf)
      (mem_permsOf.mp hp).1, r, hr, hp⟩
  · intro r p hr hp resp db2 heq
    obtain ⟨hrmem, _⟩ := mem_rolesOf.mp hr
    obtain ⟨hpmem, hppair⟩ := mem_permsOf.mp hp
    rw [unassign_single_ok_eq db hwf hrmem hpmem hppair] at heq
    have hdb2 : db2 = unassignSingleDB db r.id p.id :=
      (congrArg Prod.snd (Except.ok.inj heq)).symm
    subst hdb2
    have hu2 : findUser (unassignSingleDB db r.id p.id) uid = some u := hu
    have hps2 : get_by_slug (unassignSingleDB db r.id p.id) p.slug = some p :=
      get_by_slug_self (wf_permSlugs_nodup hwf) hpmem
    constructor
    · intro hone
      have hro : rolesOf (unassignSingleDB db r.id p.id) uid = [r] := hone
      simp only [check_user_has_permission, hu2, hps2, hro]
      simp only [List.any_cons, List.any_nil, Bool.or_false,
        decide_eq_false_iff_not]
      rw [mem_permsOf]
      rintro ⟨_, habs⟩
      exact not_mem_listRemove (wf_rolePerms_nodup hwf) habs
    · intro uid2 u2 r2 hu2b hr2 hne hp2
      obtain ⟨hpmem2, hppair2⟩ := mem_permsOf.mp hp2
      rw [check_true_iff]
      refine ⟨u2, hu2b, p, hps2, r2, hr2, ?_⟩
      rw [mem_permsOf]
      refine ⟨hpmem, ?_⟩
      show (r2.id, p.id) ∈ listRemove (r.id, p.id) db.rolePermissions
      refine (mem_listRemove_of_ne ?_).mpr hppair2
      intro hc
      exact hne (congrArg Prod.fst hc)

/-- Sample store for the cascade branch of role deletion: a role with a
permission link but no member. -/
def exCascadeDB : DB :=
  ⟨[], [⟨50, "temp", "temp"⟩], [⟨500, "x.y", none⟩], [], [(50, 500)]⟩

/-- Witness for C1 at the sample store: user 2 exists, the union
characterisation holds for a concrete slug, and a permission granted via
role 10 passes the resolver check. -/
theorem c1_witness :
    Wf exDB
    ∧ findUser exDB 2 = some ⟨2, "Bob", "bob@example.com"⟩
    ∧ (("documents.create" : String) ∈ get_user_permissions exDB 2 ↔
        ∃ r ∈ rolesOf exDB 2, ∃ p ∈ permsOf exDB r.id, p.slug = "documents.create")
    ∧ check_user_has_permission exDB 2 ("documents.create") = true := by
  have h := c1_effective_permissions_union exDB 2 ⟨2, "Bob", "bob@example.com"⟩
    (by decide) (by decide)
  refine ⟨by decide, by decide, h.1 ("documents.create"), ?_⟩
  exact h.2.2.2.1 ⟨10, "editor", "editor"⟩ ⟨100, "documents.create", none⟩
    (by decide) (by decide)

/-- Witness for C2 at the sample store: for an existing user and
permission the endpoint succeeds and its flag agrees with the resolver. -/
theorem c2_witness :
    findUser exDB 1 = some ⟨1, "Alice", "alice@example.com"⟩
    ∧ get_by_slug exDB ("documents.update") = some ⟨101, "documents.update", none⟩
    ∧ ∃ resp, check_user_permission exDB 1 ("documents.update") = Except.ok resp
        ∧ resp.has_permission = check_user_has_permission exDB 1 ("documents.update") := by
  refine ⟨by decide, by decide, ?_⟩
  exact (c2_resolver_false_endpoint_404 exDB 1 ("documents.update")).2.2.2
    ⟨1, "Alice", "alice@example.com"⟩ ⟨101, "documents.update", none⟩
    (by decide) (by decide)

/-- Witness for C3 at the sample store: requesting one resolving and one
unknown slug yields 404 listing exactly the unknown slug. -/
theorem c3_witness :
    Wf exDB
    ∧ (∃ s ∈ uniqueKeepFirst ["documents.read", "ghost"], get_by_slug exDB s = none)
    ∧ assign_permissions_to_role exDB 10 ["documents.read", "ghost"] =
        Except.error ⟨404, "Permissions not found: " ++ String.intercalate (", ")
          ((uniqueKeepFirst ["documents.read", "ghost"]).filter
            (fun s => get_by_slug exDB s = none))⟩
    ∧ (uniqueKeepFirst ["documents.read", "ghost"]).filter
        (fun s => get_by_slug exDB s = none) = ["ghost"] := by
  refine ⟨by decide, ⟨"ghost", by decide, by decide⟩, ?_, by decide⟩
  exact (((c3_assign_permissions_error_handling exDB 10 ["documents.read", "ghost"]
    (by decide)).2 ⟨10, "editor", "editor"⟩ (by decide)).1
    ⟨"ghost", by decide, by decide⟩).1

/-- Witness for C4 at the sample store: re-assigning a permission role 10
already holds (requested twice) keeps exactly one occurrence and re-running
returns the identical result. -/
theorem c4_witness :
    Wf exDB
    ∧ findRole exDB 10 = some ⟨10, "editor", "editor"⟩
    ∧ (∀ s ∈ uniqueKeepFirst ["documents.create", "documents.create"],
        get_by_slug exDB s ≠ none)
    ∧ ∃ resp db2, assign_permissions_to_role exDB 10
        ["documents.create", "documents.create"] = Except.ok (resp, db2)
        ∧ ((permsOf db2 10).filter
            (fun q => q = (⟨100, "documents.create", none⟩ : Permission))).length = 1
        ∧ (db2.rolePermissions.filter (fun pr => pr = (10, 100))).length = 1
        ∧ assign_permissions_to_role db2 10 ["documents.create", "documents.create"] =
            Except.ok (resp, db2) := by
  refine ⟨by decide, by decide, by decide, ?_⟩
  obtain ⟨resp, db2, h1, h2, h3⟩ := c4_assign_permissions_idempotent exDB 10
    ["documents.create", "documents.create"] ⟨10, "editor", "editor"⟩
    (by decide) (by decide) (by decide)
  obtain ⟨ha, hb⟩ := h2 ⟨100, "documents.create", none⟩ (by decide) (by decide)
  exact ⟨resp, db2, h1, ha, hb, h3⟩

/-- Witness for C5 at the sample store: assigning role 20 to user 3 makes
the role check true afterwards. -/
theorem c5_witness :
    Wf exDB
    ∧ findUser exDB 3 = some ⟨3, "Cara", "cara@example.com"⟩
    ∧ findRole exDB 20 = some ⟨20, "reviewer", "reviewer"⟩
    ∧ (3, 20) ∉ exDB.userRoles
    ∧ ∃ m db2, assign_role_to_user exDB 3 20 = Except.ok (m, db2)
        ∧ check_user_role_by_get db2 3 ("reviewer") = Except.ok true := by
  refine ⟨by decide, by decide, by decide, by decide, ?_⟩
  exact ((c5_role_assignment_lifecycle exDB 3 20 (by decide)).2.2
    ⟨3, "Cara", "cara@example.com"⟩ ⟨20, "reviewer", "reviewer"⟩
    (by decide) (by decide)).2.1 (by decide)

/-- Witness for C6: deleting held role 20 of the sample store is blocked
with the member count in the message, and deleting a memberless role
cascades its permission links. -/
theorem c6_witness :
    findRole exDB 20 = some ⟨20, "reviewer", "reviewer"⟩
    ∧ delete_role exDB 20 = Except.error ⟨400, "Cannot delete role. " ++
        toString (usersOf exDB 20).length ++ " users still have this role"⟩
    ∧ findRole exCascadeDB 50 = some ⟨50, "temp", "temp"⟩
    ∧ ∃ m db2, delete_role exCascadeDB 50 = Except.ok (m, db2)
        ∧ findRole db2 50 = none
        ∧ (∀ pr, pr ∈ db2.rolePermissions ↔
            pr ∈ exCascadeDB.rolePermissions ∧ pr.1 ≠ 50) := by
  refine ⟨by decide, ?_, by decide, ?_⟩
  · exact ((c6_delete_role_conflict_or_cascade exDB 20 ⟨20, "reviewer", "reviewer"⟩
      (by decide)).1 ⟨⟨1, "Alice", "alice@example.com"⟩, by decide, by decide⟩).1
  · obtain ⟨m, db2, h1, h2, h3, _⟩ :=
      (c6_delete_role_conflict_or_cascade exCascadeDB 50 ⟨50, "temp", "temp"⟩
        (by decide)).2 (by decide)
    exact ⟨m, db2, h1, h2, h3⟩

/-- Witness for C7: the bulk-assign scenario with five ids of which two do
not exist hits the 404 batch rejection of `POST /role/assign/bulk`. -/
theorem c7_witness :
    Wf exBulkDB
    ∧ findRole exBulkDB 40 = some ⟨40, "staff", "staff"⟩
    ∧ (exBulkDB.users.filter (fun u => u.id ∈ [1, 2, 3, 4, 5])).length ≠
        [1, 2, 3, 4, 5].length
    ∧ bulk_assign_role exBulkDB [1, 2, 3, 4, 5] 40 =
        Except.error ⟨404, "Some users not found"⟩ := by
  refine ⟨by decide, by decide, by decide, ?_⟩
  exact (c7_bulk_assign_not_best_effort exBulkDB 40 ⟨40, "staff", "staff"⟩
    [1, 2, 3, 4, 5] (by decide) (by decide)).1 (by decide)

/-- Witness for C8: a fresh valid slug is accepted and the row is
appended. -/
theorem c8_witness :
    2 ≤ ("documents.archive" : String).length
    ∧ ("documents.archive" : String).length ≤ 191
    ∧ re_match_slug ("documents.archive") = true
    ∧ get_by_slug exDB ("documents.archive") = none
    ∧ ∃ p db2, create_permission exDB ("documents.archive") none = Except.ok (p, db2)
        ∧ p.slug = "documents.archive"
        ∧ db2.permissions = exDB.permissions ++ [p] := by
  refine ⟨by decide, by decide, by decide, by decide, ?_⟩
  exact (c8_create_permission_validation exDB ("documents.archive") none).2.2.2.2
    (by decide) (by decide) (by decide) (by decide)

/-- Witness for C9 at the sample store: user 1 holds both roles granting
`documents.update`, and the response lists them consistently. -/
theorem c9_witness :
    findUser exDB 1 = some ⟨1, "Alice", "alice@example.com"⟩
    ∧ get_by_slug exDB ("documents.update") = some ⟨101, "documents.update", none⟩
    ∧ ∃ resp, check_user_permission exDB 1 ("documents.update") = Except.ok resp
        ∧ resp.granted_via_roles = ((rolesOf exDB 1).filter
            (fun r => (⟨101, "documents.update", none⟩ : Permission) ∈
              permsOf exDB r.id)).map (fun r => r.name)
        ∧ (resp.has_permission = true ↔ resp.granted_via_roles ≠ [])
        ∧ (∀ n, n ∈ resp.granted_via_roles ↔
            ∃ r ∈ rolesOf exDB 1, r.name = n ∧
              (⟨101, "documents.update", none⟩ : Permission) ∈ permsOf exDB r.id) := by
  refine ⟨by decide, by decide, ?_⟩
  exact c9_check_endpoint_consistency exDB 1 ("documents.update")
    ⟨1, "Alice", "alice@example.com"⟩ ⟨101, "documents.update", none⟩
    (by decide) (by decide)

/-- Witness for C10: a non-admin caller who is not the target is rejected
by `delete_user`. -/
theorem c10_witness :
    isAdminGate exAdminDB ⟨8, "Guest", "guest@example.com"⟩ = false
    ∧ findUser exAdminDB 7 = some ⟨7, "Root", "root@example.com"⟩
    ∧ delete_user exAdminDB 7 ⟨8, "Guest", "guest@example.com"⟩ =
        Except.error ⟨403, "Admin role required to delete users"⟩ := by
  refine ⟨by decide, by decide, ?_⟩
  exact (((c10_admin_gate_case_insensitive exAdminDB
    ⟨8, "Guest", "guest@example.com"⟩ 7).2.2.2.1) (by decide) (by decide)
    ⟨7, "Root", "root@example.com"⟩ (by decide)).2.1

end DocCtrl
